import Mathlib

/-!
Shallow embedding of `src/sound.rs` (Game Boy style APU: two square-wave
channels with volume envelope, frequency sweep on channel 1, length counters,
a frame sequencer and a memory-mapped register interface).

Machine integers of the source (`u8`, `u16`, `u32`) are modelled as `Nat`;
the source's register writes mask their operands (`v & 0x7`, `v >> 4`, ...)
so the relevant ranges are maintained by the operations themselves, and
theorems that need a `u8` bound carry an explicit `v < 256` hypothesis.
The external band-limited buffer (`BlipBuf`) is modelled as the list of
`add_delta` events emitted, in order; the audio device handle is dropped
(no claim is about it).  The two `while` loops of the source
(`SquareChannel::run`, `Sound::run`) are modelled with explicit fuel that
provably suffices (see `runLoopAux_exits` and `runAux_exits`), keeping every
definition kernel-computable.
-/

/-- `WAVE_PATTERN` from `sound.rs`: four 8-entry duty patterns of ±1. -/
def WAVE_PATTERN : List (List Int) :=
  [[-1,-1,-1,-1,1,-1,-1,-1],[-1,-1,-1,-1,1,1,-1,-1],[-1,-1,1,1,1,1,-1,-1],[1,1,1,1,-1,-1,1,1]]

/-- `CLOCKS_PER_SECOND` from `sound.rs` (`1 << 22`). -/
def CLOCKS_PER_SECOND : Nat := 1 <<< 22

/-- `struct VolumeEnvelope` from `sound.rs`. -/
structure VolumeEnvelope where
  period : Nat
  goes_up : Bool
  delay : Nat
  initial_volume : Nat
  volume : Nat
deriving DecidableEq

/-- `VolumeEnvelope::new`. -/
def VolumeEnvelope.new : VolumeEnvelope :=
  { period := 0, goes_up := false, delay := 0, initial_volume := 0, volume := 0 }

/-- `VolumeEnvelope::wb`. -/
def VolumeEnvelope.wb (e : VolumeEnvelope) (a v : Nat) : VolumeEnvelope :=
  if a = 0xFF12 ∨ a = 0xFF17 ∨ a = 0xFF21 then
    { e with period := v &&& 0x7
           , goes_up := v &&& 0x8 == 0x8
           , initial_volume := v >>> 4
           , volume := v >>> 4 }
  else if (a = 0xFF14 ∨ a = 0xFF19 ∨ a = 0xFF23) ∧ v &&& 0x80 = 0x80 then
    { e with delay := e.period, volume := e.initial_volume }
  else e

/-- `VolumeEnvelope::step`. -/
def VolumeEnvelope.step (e : VolumeEnvelope) : VolumeEnvelope :=
  if e.delay > 1 then
    { e with delay := e.delay - 1 }
  else if e.delay = 1 then
    { e with delay := e.period
           , volume :=
               if e.goes_up ∧ e.volume < 15 then e.volume + 1
               else if ¬e.goes_up ∧ e.volume > 0 then e.volume - 1
               else e.volume }
  else e

/-- `struct SquareChannel` from `sound.rs`; `blip` is the ordered list of
`add_delta (time, delta)` events issued to the band-limited buffer. -/
structure SquareChannel where
  enabled : Bool
  duty : Nat
  phase : Nat
  length : Nat
  length_enabled : Bool
  frequency : Nat
  period : Nat
  last_amp : Int
  delay : Nat
  has_sweep : Bool
  sweep_frequency : Nat
  sweep_delay : Nat
  sweep_period : Nat
  sweep_shift : Nat
  sweep_by_adding : Bool
  volume_envelope : VolumeEnvelope
  blip : List (Nat × Int)
deriving DecidableEq

/-- `SquareChannel::new` (the `BlipBuf` argument becomes the empty event list). -/
def SquareChannel.new (with_sweep : Bool) : SquareChannel :=
  { enabled := false, duty := 1, phase := 1, length := 0, length_enabled := false
  , frequency := 0, period := 0, last_amp := 0, delay := 0
  , has_sweep := with_sweep, sweep_frequency := 0, sweep_delay := 0
  , sweep_period := 0, sweep_shift := 0, sweep_by_adding := false
  , volume_envelope := VolumeEnvelope.new, blip := [] }

/-- `SquareChannel::on` (named `is_on` here: `on` is a reserved token once
Mathlib is imported). -/
def SquareChannel.is_on (c : SquareChannel) : Bool :=
  c.enabled && (!c.length_enabled || decide (c.length < 64))

/-- `SquareChannel::calculate_period`. -/
def SquareChannel.calculate_period (c : SquareChannel) : SquareChannel :=
  if c.frequency > 2048 then { c with period := 0 }
  else { c with period := (2048 - c.frequency) * 4 }

/-- `SquareChannel::step_sweep`. -/
def SquareChannel.step_sweep (c : SquareChannel) : SquareChannel :=
  if ¬c.has_sweep ∨ c.sweep_period = 0 then c
  else if c.sweep_delay > 1 then
    { c with sweep_delay := c.sweep_delay - 1 }
  else
    let c := { c with sweep_delay := c.sweep_period, frequency := c.sweep_frequency }
    let c := c.calculate_period
    let offset := c.sweep_frequency >>> c.sweep_shift
    if c.sweep_by_adding then
      if c.sweep_frequency ≥ 2048 - offset then
        { c with sweep_delay := 0, sweep_frequency := 2048 }
      else
        { c with sweep_frequency := c.sweep_frequency + offset }
    else
      if c.sweep_frequency ≤ offset then
        { c with sweep_frequency := 0 }
      else
        { c with sweep_frequency := c.sweep_frequency - offset }

/-- `SquareChannel::step_length`. -/
def SquareChannel.step_length (c : SquareChannel) : SquareChannel :=
  if c.length_enabled ∧ c.length < 64 then { c with length := c.length + 1 }
  else c

/-- `SquareChannel::wb`. -/
def SquareChannel.wb (c : SquareChannel) (a v : Nat) : SquareChannel :=
  let c :=
    if a = 0xFF10 ∧ c.has_sweep then
      { c with sweep_period := (v >>> 4) &&& 0x7
             , sweep_shift := v &&& 0x7
             , sweep_by_adding := v &&& 0x8 == 0x8 }
    else if a = 0xFF11 ∨ a = 0xFF16 then
      { c with duty := v >>> 6, length := v &&& 0x3F }
    else if a = 0xFF13 ∨ a = 0xFF18 then
      ({ c with frequency := (c.frequency &&& 0xFF00) ||| v }).calculate_period
    else if a = 0xFF14 ∨ a = 0xFF19 then
      let c := ({ c with frequency :=
                   (c.frequency &&& 0x00FF) ||| ((v &&& 0x7) <<< 8) }).calculate_period
      let c := { c with length_enabled := v &&& 0x40 == 0x40
                      , enabled := v &&& 0x80 == 0x80
                      , delay := 0 }
      let c := { c with sweep_frequency := c.frequency }
      if c.has_sweep ∧ c.sweep_period > 0 ∧ c.sweep_shift > 0 then
        ({ c with sweep_delay := 1 }).step_sweep
      else c
    else c
  { c with volume_envelope := c.volume_envelope.wb a v }

/-- The loop body of `SquareChannel::run`, with fuel.  The source only enters
the loop with `period != 0`, for which `end_time + 1` fuel provably suffices
(`runLoopAux_exits`).  Returns the updated channel and the final time cursor. -/
def SquareChannel.runLoopAux : Nat → SquareChannel → Nat → Nat → Nat → List Int → SquareChannel × Nat
  | 0, c, time, _, _, _ => (c, time)
  | fuel + 1, c, time, end_time, vol, pattern =>
    if time ≤ end_time then
      let amp : Int := (vol : Int) * pattern.getD c.phase 0
      let c :=
        if amp ≠ c.last_amp then
          { c with blip := c.blip ++ [(time, amp - c.last_amp)], last_amp := amp }
        else c
      let c := { c with phase := (c.phase + 1) % 8 }
      SquareChannel.runLoopAux fuel c (time + c.period) end_time vol pattern
    else (c, time)

/-- `SquareChannel::run`. -/
def SquareChannel.run (c : SquareChannel) (start_time end_time : Nat) : SquareChannel :=
  if ¬c.enabled ∨ (c.length = 64 ∧ c.length_enabled) ∨ c.period = 0 then
    if c.last_amp ≠ 0 then
      { c with blip := c.blip ++ [(start_time, -c.last_amp)], last_amp := 0, delay := 0 }
    else c
  else
    let r := SquareChannel.runLoopAux (end_time + 1) c (start_time + c.delay) end_time
               c.volume_envelope.volume (WAVE_PATTERN.getD c.duty [])
    { r.1 with delay := r.2 - end_time }

/-- `struct Sound` from `sound.rs` (the `cpal::Voice` handle is dropped;
the source field `on` is named `is_on`, since `on` is a reserved token once
Mathlib is imported). -/
structure Sound where
  is_on : Bool
  registerdata : List Nat
  time : Nat
  prev_time : Nat
  next_time : Nat
  time_divider : Nat
  channel1 : SquareChannel
  channel2 : SquareChannel
  volume_left : Nat
  volume_right : Nat
deriving DecidableEq

/-- `Sound::new` (the audio-device plumbing dropped; fields as initialized
in the source). -/
def Sound.new : Sound :=
  { is_on := false, registerdata := List.replicate 0x17 0
  , time := 0, prev_time := 0, next_time := CLOCKS_PER_SECOND / 256
  , time_divider := 0
  , channel1 := SquareChannel.new true, channel2 := SquareChannel.new false
  , volume_left := 7, volume_right := 7 }

/-- One iteration of the `while` loop in `Sound::run`. -/
def Sound.runOnce (s : Sound) : Sound :=
  let c1 := s.channel1.run s.prev_time s.next_time
  let c2 := s.channel2.run s.prev_time s.next_time
  let c1 := c1.step_length
  let c2 := c2.step_length
  let c1 :=
    if s.time_divider = 0 then { c1 with volume_envelope := c1.volume_envelope.step }
    else if s.time_divider &&& 1 = 1 then c1.step_sweep
    else c1
  let c2 :=
    if s.time_divider = 0 then { c2 with volume_envelope := c2.volume_envelope.step }
    else c2
  { s with channel1 := c1, channel2 := c2
         , time_divider := (s.time_divider + 1) % 4
         , prev_time := s.next_time
         , next_time := s.next_time + CLOCKS_PER_SECOND / 256 }

/-- The `while next_time <= time` loop of `Sound::run`, with fuel;
`time + 1` fuel provably suffices (`runAux_exits`). -/
def Sound.runAux : Nat → Sound → Sound
  | 0, s => s
  | fuel + 1, s =>
    if s.next_time ≤ s.time then Sound.runAux fuel s.runOnce else s

/-- `Sound::run`. -/
def Sound.run (s : Sound) : Sound := Sound.runAux (s.time + 1) s

/-- `Sound::rb`; returns the updated state (`run` is called first) and the
byte read. -/
def Sound.rb (s : Sound) (a : Nat) : Sound × Nat :=
  let s := s.run
  let v :=
    if 0xFF10 ≤ a ∧ a ≤ 0xFF25 then s.registerdata.getD (a - 0xFF10) 0
    else if a = 0xFF26 then
      ((s.registerdata.getD (a - 0xFF10) 0 &&& 0xF0)
        ||| (if s.channel1.is_on then 1 else 0))
        ||| (if s.channel2.is_on then 2 else 0)
    else 0
  (s, v)

/-- `Sound::wb`. -/
def Sound.wb (s : Sound) (a v : Nat) : Sound :=
  if a ≠ 0xFF26 ∧ s.is_on = false then s
  else
    let s := s.run
    let s :=
      if 0xFF10 ≤ a ∧ a ≤ 0xFF26 then
        { s with registerdata := s.registerdata.set (a - 0xFF10) v }
      else s
    if 0xFF10 ≤ a ∧ a ≤ 0xFF14 then { s with channel1 := s.channel1.wb a v }
    else if 0xFF16 ≤ a ∧ a ≤ 0xFF19 then { s with channel2 := s.channel2.wb a v }
    else if a = 0xFF24 then
      { s with volume_left := v &&& 0x7, volume_right := (v >>> 4) &&& 0x7 }
    else if a = 0xFF26 then { s with is_on := v &&& 0x80 == 0x80 }
    else s

/-- `Sound::do_cycle`. -/
def Sound.do_cycle (s : Sound) (cycles : Nat) : Sound :=
  if s.is_on = false then s else { s with time := s.time + cycles }

/-- The volume-envelope mutations the rest of the module can perform:
register/trigger writes (with a `u8` operand) and sequencer steps. -/
inductive VolumeEnvelope.Reachable : VolumeEnvelope → Prop where
  | init : VolumeEnvelope.Reachable VolumeEnvelope.new
  | wb {e : VolumeEnvelope} (a v : Nat) :
      VolumeEnvelope.Reachable e → v < 256 → VolumeEnvelope.Reachable (e.wb a v)
  | step {e : VolumeEnvelope} :
      VolumeEnvelope.Reachable e → VolumeEnvelope.Reachable e.step

/-- The operations `Sound` performs on a `SquareChannel`: register writes,
length steps, sweep steps, waveform generation, envelope steps. -/
inductive ChanOp where
  | write (a v : Nat)
  | lengthStep
  | sweepStep
  | gen (s e : Nat)
  | envStep
deriving DecidableEq

/-- Apply one channel operation. -/
def ChanOp.apply (o : ChanOp) (c : SquareChannel) : SquareChannel :=
  match o with
  | .write a v => c.wb a v
  | .lengthStep => c.step_length
  | .sweepStep => c.step_sweep
  | .gen s e => c.run s e
  | .envStep => { c with volume_envelope := c.volume_envelope.step }

/-- Apply a list of channel operations, left to right. -/
def ChanOp.applyOps (l : List ChanOp) (c : SquareChannel) : SquareChannel :=
  l.foldl (fun c o => o.apply c) c

/-- Whether an operation is a write to the duty/length register. -/
def ChanOp.lengthWrite : ChanOp → Bool
  | .write a _ => decide (a = 0xFF11 ∨ a = 0xFF16)
  | _ => false

/-- The state the sweep unit is parked in after an add-mode overflow:
sweeping disabled (`sweep_delay = 0`) with the out-of-range sentinel
`sweep_frequency = 2048`, on a present, active, adding sweep unit. -/
def SweepSentinel (c : SquareChannel) : Prop :=
  c.has_sweep = true ∧ 0 < c.sweep_period ∧ c.sweep_by_adding = true ∧
  c.sweep_delay = 0 ∧ c.sweep_frequency = 2048

instance (c : SquareChannel) : Decidable (SweepSentinel c) := by
  unfold SweepSentinel; infer_instance

/-- Channel-1 state about to perform an overflowing add-mode sweep step:
shadow frequency 1800 with shift 1 gives offset 900 and
`1800 ≥ 2048 - 900`. -/
def sweepOverflowChan : SquareChannel :=
  { SquareChannel.new true with
      sweep_period := 1, sweep_shift := 1, sweep_by_adding := true,
      sweep_frequency := 1800, sweep_delay := 1, frequency := 1800 }

/-- Channel-1 state whose next trigger write of `0x85` yields the 11-bit
frequency `0x560 = 1376`, which overflows under shift 1
(`1376 ≥ 2048 - 688`). -/
def triggerOverflowChan : SquareChannel :=
  { SquareChannel.new true with
      sweep_period := 1, sweep_shift := 1, sweep_by_adding := true,
      frequency := 0x60 }

/-- Envelope with `period = 0` but a leftover countdown (`delay = 1`),
reachable by arming a period-1 envelope and then writing period 0. -/
def envLeftoverDelay : VolumeEnvelope :=
  { period := 0, goes_up := false, delay := 1, initial_volume := 5, volume := 5 }

/-- Freshly reloaded increasing envelope with period 3 and volume 10. -/
def envReload : VolumeEnvelope :=
  { period := 3, goes_up := true, delay := 3, initial_volume := 10, volume := 10 }

/-- Disabled envelope (`period = 0`, `delay = 0`). -/
def envZero : VolumeEnvelope :=
  { period := 0, goes_up := false, delay := 0, initial_volume := 4, volume := 4 }

/-- Powered-on APU with one sequencer tick pending (`next_time ≤ time`) and
channel 1 counting length. -/
def soundPending : Sound :=
  { Sound.new with
      is_on := true, time := 16384, next_time := 16384,
      channel1 := { SquareChannel.new true with
                      length_enabled := true, length := 5 } }

/-- Powered-on APU with no sequencer tick pending, status shadow `0xA0`,
channel 1 enabled and audible, channel 2 disabled. -/
def soundIdle : Sound :=
  { Sound.new with
      is_on := true, time := 0, next_time := 16384,
      registerdata := (List.replicate 0x17 0).set 0x16 0xA0,
      channel1 := { SquareChannel.new true with enabled := true } }

/-- Channel parked at the sentinel frequency 2048 with a non-zero
trailing amplitude. -/
def silentChan : SquareChannel :=
  { SquareChannel.new true with frequency := 2048, enabled := true, last_amp := 5 }

/-- An add-mode sweep step whose countdown has elapsed (`sweep_delay ≤ 1`)
and whose shadow frequency overflows commits the shadow to the live
frequency, recomputes the period from it, then parks the sweep at
`sweep_delay = 0`, `sweep_frequency = 2048`. -/
lemma step_sweep_overflow (c : SquareChannel)
    (hs : c.has_sweep = true) (hp : 0 < c.sweep_period)
    (ha : c.sweep_by_adding = true) (hd : c.sweep_delay ≤ 1)
    (hov : 2048 - (c.sweep_frequency >>> c.sweep_shift) ≤ c.sweep_frequency) :
    c.step_sweep =
      { c with
          sweep_delay := 0, frequency := c.sweep_frequency,
          period := if 2048 < c.sweep_frequency then 0
                    else (2048 - c.sweep_frequency) * 4,
          sweep_frequency := 2048 } := by
  have h1 : ¬(¬c.has_sweep = true ∨ c.sweep_period = 0) := by
    simp [hs]; omega
  have h2 : ¬(c.sweep_delay > 1) := by omega
  unfold SquareChannel.step_sweep SquareChannel.calculate_period
  rw [if_neg h1, if_neg h2]
  split
  · rename_i hgt
    simp [hgt, hov, ha]
  · rename_i hgt
    simp [hgt, hov, ha]

/-- A sweep step from the sentinel state commits frequency 2048 (hence
period 0) to the channel and stays in the sentinel state. -/
lemma step_sweep_sentinel (c : SquareChannel) (h : SweepSentinel c) :
    c.step_sweep =
      { c with
          sweep_delay := 0, frequency := 2048, period := 0,
          sweep_frequency := 2048 } ∧
    SweepSentinel c.step_sweep := by
  obtain ⟨hs, hp, ha, hd, hf⟩ := h
  have heq := step_sweep_overflow c hs hp ha (by omega)
    (by rw [hf]; exact Nat.sub_le _ _)
  rw [hf] at heq
  norm_num at heq
  refine ⟨heq, ?_⟩
  rw [heq]
  exact ⟨hs, hp, ha, rfl, rfl⟩

/-- Every iterate of `step_sweep` from the sentinel state stays in it, and
from the first step on the live frequency is 2048 and the period 0. -/
lemma step_sweep_sentinel_iterate (c : SquareChannel) (h : SweepSentinel c) (n : Nat) :
    SweepSentinel (SquareChannel.step_sweep^[n] c) ∧
    (0 < n → (SquareChannel.step_sweep^[n] c).period = 0 ∧
             (SquareChannel.step_sweep^[n] c).frequency = 2048) := by
  induction n with
  | zero => exact ⟨h, by omega⟩
  | succ k ih =>
    rw [Function.iterate_succ_apply']
    obtain ⟨hsent, -⟩ := ih
    obtain ⟨heq, hsent2⟩ := step_sweep_sentinel _ hsent
    exact ⟨hsent2, fun _ => by rw [heq]; exact ⟨rfl, rfl⟩⟩

/-- While the envelope countdown has not elapsed, stepping only decrements
`delay`; all other fields are untouched. -/
lemma env_step_countdown : ∀ (k : Nat) (e : VolumeEnvelope), k < e.delay →
    VolumeEnvelope.step^[k] e = { e with delay := e.delay - k }
  | 0, e, _ => rfl
  | k + 1, e, h => by
    rw [Function.iterate_succ_apply]
    have hstep : e.step = { e with delay := e.delay - 1 } := by
      unfold VolumeEnvelope.step
      rw [if_pos (by omega)]
    rw [hstep, env_step_countdown k _ (by dsimp only; omega)]
    dsimp only
    congr 1
    omega

/-- An envelope whose countdown is exhausted (`delay = 0`) is a fixed point
of `step`. -/
lemma env_step_of_delay_zero (e : VolumeEnvelope) (h : e.delay = 0) :
    e.step = e := by
  unfold VolumeEnvelope.step
  rw [if_neg (by omega), if_neg (by omega)]

/-- Unfolding equation for `Sound.runAux` at a successor fuel value. -/
lemma runAux_succ (fuel : Nat) (s : Sound) :
    Sound.runAux (fuel + 1) s =
      if s.next_time ≤ s.time then Sound.runAux fuel s.runOnce else s := rfl

/-- One sequencer iteration leaves the register shadow untouched. -/
lemma runOnce_registerdata (s : Sound) : s.runOnce.registerdata = s.registerdata := rfl

/-- The sequencer catch-up loop leaves the register shadow untouched. -/
lemma runAux_registerdata : ∀ (fuel : Nat) (s : Sound),
    (Sound.runAux fuel s).registerdata = s.registerdata
  | 0, _ => rfl
  | fuel + 1, s => by
    rw [runAux_succ]
    split
    · rw [runAux_registerdata fuel, runOnce_registerdata]
    · rfl

/-- `time + 1` fuel always suffices for the catch-up loop: the loop condition
`next_time ≤ time` is false when `runAux` returns. -/
lemma runAux_exits : ∀ (fuel : Nat) (s : Sound), s.time < s.next_time + fuel →
    (Sound.runAux fuel s).time < (Sound.runAux fuel s).next_time
  | 0, s, h => by simpa using h
  | fuel + 1, s, h => by
    rw [runAux_succ]
    split
    · apply runAux_exits fuel
      have ht : s.runOnce.time = s.time := rfl
      have hn : s.runOnce.next_time = s.next_time + CLOCKS_PER_SECOND / 256 := rfl
      have hc : CLOCKS_PER_SECOND / 256 = 16384 := rfl
      rw [ht, hn, hc]
      omega
    · omega

/-- `Sound::run` always drains every pending sequencer tick. -/
lemma run_exits (s : Sound) : (s.run).time < (s.run).next_time :=
  runAux_exits (s.time + 1) s (by omega)

/-- With no sequencer tick pending, the catch-up is the identity. -/
lemma run_of_no_pending (s : Sound) (h : s.time < s.next_time) : s.run = s := by
  show Sound.runAux (s.time + 1) s = s
  rw [runAux_succ, if_neg (by omega)]

/-- Unfolding equation for `SquareChannel.runLoopAux` at a successor fuel. -/
lemma runLoopAux_succ (fuel : Nat) (c : SquareChannel) (t e v : Nat) (p : List Int) :
    SquareChannel.runLoopAux (fuel + 1) c t e v p =
      if t ≤ e then
        SquareChannel.runLoopAux fuel
          { (if (v : Int) * p.getD c.phase 0 ≠ c.last_amp then
               { c with
                   blip := c.blip ++ [(t, (v : Int) * p.getD c.phase 0 - c.last_amp)],
                   last_amp := (v : Int) * p.getD c.phase 0 }
             else c) with
              phase := (c.phase + 1) % 8 }
          (t + c.period) e v p
      else (c, t) := by
  simp only [SquareChannel.runLoopAux]
  split
  · split
    · rfl
    · rfl
  · rfl

/-- The generation loop never touches the length counter. -/
lemma runLoopAux_length : ∀ (fuel : Nat) (c : SquareChannel) (t e v : Nat) (p : List Int),
    (SquareChannel.runLoopAux fuel c t e v p).1.length = c.length
  | 0, _, _, _, _, _ => rfl
  | fuel + 1, c, t, e, v, p => by
    rw [runLoopAux_succ]
    split
    · rw [runLoopAux_length fuel]
      split <;> rfl
    · rfl

/-- With a non-zero waveform period, `end_time + 1` fuel always suffices for
the generation loop: the final cursor lies strictly past `end_time`. -/
lemma runLoopAux_exits : ∀ (fuel : Nat) (c : SquareChannel) (t e v : Nat) (p : List Int),
    0 < c.period → e < t + fuel →
    e < (SquareChannel.runLoopAux fuel c t e v p).2
  | 0, c, t, e, v, p, _, h => by simpa using h
  | fuel + 1, c, t, e, v, p, hp, h => by
    simp only [SquareChannel.runLoopAux]
    split
    · split
      · exact runLoopAux_exits fuel _ _ _ _ _ hp
          (by show e < t + c.period + fuel; omega)
      · exact runLoopAux_exits fuel _ _ _ _ _ hp
          (by show e < t + c.period + fuel; omega)
    · show e < t
      omega

/-- `SquareChannel::run` never touches the length counter. -/
lemma run_length (c : SquareChannel) (s e : Nat) : (c.run s e).length = c.length := by
  unfold SquareChannel.run
  split
  · split <;> rfl
  · exact runLoopAux_length _ _ _ _ _ _

/-- `step_sweep` never touches the length counter. -/
lemma step_sweep_length (c : SquareChannel) : c.step_sweep.length = c.length := by
  unfold SquareChannel.step_sweep SquareChannel.calculate_period
  split
  · rfl
  · split
    · rfl
    · dsimp only
      repeat' split
      all_goals rfl

/-- `calculate_period` never touches the length counter. -/
lemma calculate_period_length (c : SquareChannel) : c.calculate_period.length = c.length := by
  unfold SquareChannel.calculate_period
  split <;> rfl

/-- A register write away from the duty/length registers leaves `length`
unchanged. -/
lemma wb_length (c : SquareChannel) (a v : Nat) (h : ¬(a = 0xFF11 ∨ a = 0xFF16)) :
    (c.wb a v).length = c.length := by
  unfold SquareChannel.wb
  dsimp only
  split
  · rfl
  · split
    · rw [calculate_period_length]
    · split
      · split
        · rw [step_sweep_length]
          dsimp only
          rw [calculate_period_length]
        · dsimp only
          rw [calculate_period_length]
      · rfl

/-- A duty/length-register write loads `length` with the low six bits of the
written byte. -/
lemma wb_length_write (c : SquareChannel) (a v : Nat) (h : a = 0xFF11 ∨ a = 0xFF16) :
    (c.wb a v).length = v &&& 0x3F := by
  unfold SquareChannel.wb
  dsimp only
  rw [if_neg (by rcases h with h | h <;> simp [h]), if_pos h]

/-- Every channel operation keeps the length counter at most 64. -/
lemma apply_length_le (o : ChanOp) (c : SquareChannel) (h : c.length ≤ 64) :
    (o.apply c).length ≤ 64 := by
  cases o with
  | write a v =>
    show (c.wb a v).length ≤ 64
    by_cases hl : a = 0xFF11 ∨ a = 0xFF16
    · rw [wb_length_write c a v hl]
      have := Nat.and_le_right (n := v) (m := 0x3F)
      omega
    · rw [wb_length c a v hl]
      exact h
  | lengthStep =>
    show c.step_length.length ≤ 64
    unfold SquareChannel.step_length
    split
    · rename_i hc
      dsimp only
      omega
    · exact h
  | sweepStep =>
    show c.step_sweep.length ≤ 64
    rw [step_sweep_length]
    exact h
  | gen s e =>
    show (c.run s e).length ≤ 64
    rw [run_length]
    exact h
  | envStep => exact h

/-- Every channel operation other than a duty/length-register write never
decreases the length counter. -/
lemma apply_length_mono (o : ChanOp) (c : SquareChannel) (h : o.lengthWrite = false) :
    c.length ≤ (o.apply c).length := by
  cases o with
  | write a v =>
    have ha : ¬(a = 0xFF11 ∨ a = 0xFF16) := by
      simpa [ChanOp.lengthWrite] using h
    show c.length ≤ (c.wb a v).length
    rw [wb_length c a v ha]
  | lengthStep =>
    show c.length ≤ c.step_length.length
    unfold SquareChannel.step_length
    split
    · dsimp only
      omega
    · exact le_refl _
  | sweepStep =>
    show c.length ≤ c.step_sweep.length
    rw [step_sweep_length]
  | gen s e =>
    show c.length ≤ (c.run s e).length
    rw [run_length]
  | envStep => exact le_refl _

/-- `applyOps` unfolds one operation at a time. -/
lemma applyOps_cons (o : ChanOp) (l : List ChanOp) (c : SquareChannel) :
    ChanOp.applyOps (o :: l) c = ChanOp.applyOps l (o.apply c) := rfl

/-- Any operation sequence keeps the length counter at most 64. -/
lemma applyOps_length_le (l : List ChanOp) (c : SquareChannel) (h : c.length ≤ 64) :
    (ChanOp.applyOps l c).length ≤ 64 := by
  induction l generalizing c with
  | nil => exact h
  | cons o l ih =>
    rw [applyOps_cons]
    exact ih _ (apply_length_le o c h)

/-- An operation sequence free of duty/length-register writes never decreases
the length counter. -/
lemma applyOps_length_mono (l : List ChanOp) (c : SquareChannel)
    (h : ∀ o ∈ l, o.lengthWrite = false) :
    c.length ≤ (ChanOp.applyOps l c).length := by
  induction l generalizing c with
  | nil => exact le_refl _
  | cons o l ih =>
    rw [applyOps_cons]
    exact le_trans (apply_length_mono o c (h o (by simp)))
      (ih _ (fun o' ho' => h o' (by simp [ho'])))

/-- A `u8` register write keeps both envelope volumes within [0,15]. -/
lemma env_wb_inv (e : VolumeEnvelope) (a v : Nat) (hv : v < 256)
    (h : e.volume ≤ 15 ∧ e.initial_volume ≤ 15) :
    (e.wb a v).volume ≤ 15 ∧ (e.wb a v).initial_volume ≤ 15 := by
  have h16 : v >>> 4 ≤ 15 := by
    rw [Nat.shiftRight_eq_div_pow]
    omega
  unfold VolumeEnvelope.wb
  split
  · exact ⟨h16, h16⟩
  · split
    · exact ⟨h.2, h.2⟩
    · exact h

/-- An envelope step keeps both volumes within [0,15]. -/
lemma env_step_inv (e : VolumeEnvelope)
    (h : e.volume ≤ 15 ∧ e.initial_volume ≤ 15) :
    e.step.volume ≤ 15 ∧ e.step.initial_volume ≤ 15 := by
  unfold VolumeEnvelope.step
  split
  · exact h
  · split
    · refine ⟨?_, h.2⟩
      dsimp only
      split
      · rename_i hc
        omega
      · split
        · omega
        · exact h.1
    · exact h

/-- Volume invariant of every reachable envelope state. -/
lemma env_reachable_inv (e : VolumeEnvelope) (h : e.Reachable) :
    e.volume ≤ 15 ∧ e.initial_volume ≤ 15 := by
  induction h with
  | init => exact ⟨Nat.zero_le _, Nat.zero_le _⟩
  | wb a v _ hv ih => exact env_wb_inv _ a v hv ih
  | step _ ih => exact env_step_inv _ ih

/-- Stepping never changes the envelope direction. -/
lemma env_step_goes_up (e : VolumeEnvelope) : e.step.goes_up = e.goes_up := by
  unfold VolumeEnvelope.step
  split
  · rfl
  · split <;> rfl

/-- An increasing envelope already at volume 15 keeps volume 15 under a step. -/
lemma env_step_at_top (e : VolumeEnvelope) (hg : e.goes_up = true)
    (hv : e.volume = 15) : e.step.volume = 15 := by
  unfold VolumeEnvelope.step
  split
  · exact hv
  · split
    · simp [hg, hv]
    · exact hv

/-- A decreasing envelope already at volume 0 keeps volume 0 under a step. -/
lemma env_step_at_bottom (e : VolumeEnvelope) (hg : e.goes_up = false)
    (hv : e.volume = 0) : e.step.volume = 0 := by
  unfold VolumeEnvelope.step
  split
  · exact hv
  · split
    · simp [hg, hv]
    · exact hv

/-- Iterated steps keep an increasing envelope clamped at volume 15. -/
lemma env_iterate_at_top (n : Nat) (e : VolumeEnvelope) (hg : e.goes_up = true)
    (hv : e.volume = 15) : (VolumeEnvelope.step^[n] e).volume = 15 := by
  induction n generalizing e with
  | zero => exact hv
  | succ k ih =>
    rw [Function.iterate_succ_apply]
    exact ih _ (by rw [env_step_goes_up]; exact hg) (env_step_at_top e hg hv)

/-- Iterated steps keep a decreasing envelope clamped at volume 0. -/
lemma env_iterate_at_bottom (n : Nat) (e : VolumeEnvelope) (hg : e.goes_up = false)
    (hv : e.volume = 0) : (VolumeEnvelope.step^[n] e).volume = 0 := by
  induction n generalizing e with
  | zero => exact hv
  | succ k ih =>
    rw [Function.iterate_succ_apply]
    exact ih _ (by rw [env_step_goes_up]; exact hg) (env_step_at_bottom e hg hv)

set_option maxRecDepth 4096 in
/-- Bit-level reading of the status byte assembled by `Sound::rb`: the two
low bits are the channel-on flags and the upper nibble is the stored shadow
nibble. -/
lemma status_byte_bits : ∀ x < 256, ∀ o1 o2 : Bool,
    ((((x &&& 0xF0) ||| (if o1 then 1 else 0)) ||| (if o2 then 2 else 0)).testBit 0 = o1) ∧
    ((((x &&& 0xF0) ||| (if o1 then 1 else 0)) ||| (if o2 then 2 else 0)).testBit 1 = o2) ∧
    ((((x &&& 0xF0) ||| (if o1 then 1 else 0)) ||| (if o2 then 2 else 0)) >>> 4 = x >>> 4) := by
  decide

/-- C1 (corrected).  When a channel-1 sweep step in add mode overflows
(`shadow_frequency ≥ 2048 - (shadow_frequency >> shift)`), the step parks the
sweep at `sweep_frequency = 2048` with `sweep_delay = 0`; the live waveform
period becomes 0 only at the NEXT sweep step — not already at the overflow
step itself, see `c1_counterexample` — and from that next step on every
further sweep step leaves the live frequency at 2048 and the period at 0
until a trigger write re-arms the sweep. -/
theorem c1_sweep_overflow_silences (c : SquareChannel) (n : Nat)
    (hs : c.has_sweep = true) (hp : 0 < c.sweep_period)
    (ha : c.sweep_by_adding = true) (hd : c.sweep_delay ≤ 1)
    (hov : 2048 - (c.sweep_frequency >>> c.sweep_shift) ≤ c.sweep_frequency) :
    c.step_sweep.sweep_frequency = 2048 ∧ c.step_sweep.sweep_delay = 0 ∧
    (SquareChannel.step_sweep^[n + 2] c).period = 0 ∧
    (SquareChannel.step_sweep^[n + 2] c).frequency = 2048 := by
  have hstep := step_sweep_overflow c hs hp ha hd hov
  have hsent : SweepSentinel c.step_sweep := by
    rw [hstep]
    exact ⟨hs, hp, ha, rfl, rfl⟩
  have hiter := step_sweep_sentinel_iterate c.step_sweep hsent (n + 1)
  have hpf := hiter.2 (by omega)
  refine ⟨by rw [hstep], by rw [hstep], ?_, ?_⟩
  · rw [Function.iterate_succ_apply]
    exact hpf.1
  · rw [Function.iterate_succ_apply]
    exact hpf.2

/-- Witness for C1 at the concrete overflowing state `sweepOverflowChan`. -/
theorem c1_sweep_overflow_silences_witness :
    sweepOverflowChan.step_sweep.sweep_frequency = 2048 ∧
    sweepOverflowChan.step_sweep.sweep_delay = 0 ∧
    (SquareChannel.step_sweep^[2] sweepOverflowChan).period = 0 ∧
    (SquareChannel.step_sweep^[2] sweepOverflowChan).frequency = 2048 :=
  c1_sweep_overflow_silences sweepOverflowChan 0 (by decide) (by decide)
    (by decide) (by decide) (by decide)

/-- C1 counterexample: at `sweepOverflowChan` every premise of the claim
holds (sweep present and active, add mode, elapsed countdown, overflow), yet
the waveform period right after the overflowing sweep step is 992, not 0. -/
theorem c1_counterexample :
    sweepOverflowChan.has_sweep = true ∧ 0 < sweepOverflowChan.sweep_period ∧
    sweepOverflowChan.sweep_by_adding = true ∧ sweepOverflowChan.sweep_delay ≤ 1 ∧
    2048 - (sweepOverflowChan.sweep_frequency >>> sweepOverflowChan.sweep_shift) ≤
      sweepOverflowChan.sweep_frequency ∧
    sweepOverflowChan.step_sweep.period = 992 ∧
    ¬sweepOverflowChan.step_sweep.period = 0 := by decide

/-- C2 (corrected).  A trigger write (bit 7 set) to `0xFF14` with an armed
sweep unit (`sweep_period > 0`, `sweep_shift > 0`) performs one sweep
recalculation during the write: with an overflowing triggered frequency `F`
in add mode the shadow is parked at 2048 with `sweep_delay = 0`.  But the
channel is not silenced at write time: the period immediately after the write
is `(2048 - F) * 4 ≠ 0` (see `c2_counterexample`); the period becomes 0 at
the next sweep step of the sequencer. -/
theorem c2_trigger_sweep_recalc (c : SquareChannel) (v F : Nat)
    (hs : c.has_sweep = true) (hp : 0 < c.sweep_period) (hsh : 0 < c.sweep_shift)
    (ha : c.sweep_by_adding = true) (htr : v &&& 0x80 = 0x80)
    (hF : F = (c.frequency &&& 0xFF) ||| ((v &&& 0x7) <<< 8))
    (hov : 2048 - (F >>> c.sweep_shift) ≤ F) :
    (c.wb 0xFF14 v).frequency = F ∧
    (c.wb 0xFF14 v).period = (2048 - F) * 4 ∧
    ¬(c.wb 0xFF14 v).period = 0 ∧
    (c.wb 0xFF14 v).enabled = true ∧
    (c.wb 0xFF14 v).sweep_frequency = 2048 ∧
    (c.wb 0xFF14 v).sweep_delay = 0 ∧
    (c.wb 0xFF14 v).step_sweep.period = 0 ∧
    (c.wb 0xFF14 v).step_sweep.frequency = 2048 := by
  have hFlt : F < 2048 := by
    rw [hF]
    have h1 : c.frequency &&& 0xFF < 2 ^ 11 :=
      lt_of_le_of_lt Nat.and_le_right (by norm_num)
    have h2 : (v &&& 0x7) <<< 8 < 2 ^ 11 := by
      have : v &&& 0x7 ≤ 7 := Nat.and_le_right
      rw [Nat.shiftLeft_eq]
      calc (v &&& 0x7) * 2 ^ 8 ≤ 7 * 2 ^ 8 := by
            exact Nat.mul_le_mul_right _ this
        _ < 2 ^ 11 := by norm_num
    calc c.frequency &&& 0xFF ||| (v &&& 0x7) <<< 8 < 2 ^ 11 :=
          Nat.or_lt_two_pow h1 h2
      _ = 2048 := by norm_num
  have hwb : c.wb 0xFF14 v =
      { c with
          frequency := F, period := (2048 - F) * 4,
          length_enabled := v &&& 0x40 == 0x40, enabled := v &&& 0x80 == 0x80,
          delay := 0, sweep_frequency := 2048, sweep_delay := 0,
          volume_envelope := c.volume_envelope.wb 0xFF14 v } := by
    unfold SquareChannel.wb
    dsimp only
    rw [if_neg (by simp), if_neg (by norm_num), if_neg (by norm_num),
      if_pos (by norm_num : (0xFF14 : Nat) = 0xFF14 ∨ (0xFF14 : Nat) = 0xFF19)]
    rw [← hF]
    unfold SquareChannel.calculate_period
    dsimp only
    rw [if_neg (show ¬(F > 2048) by omega)]
    dsimp only
    rw [if_pos (show c.has_sweep = true ∧ c.sweep_period > 0 ∧ c.sweep_shift > 0
      from ⟨hs, hp, hsh⟩)]
    rw [step_sweep_overflow]
    · dsimp only
      rw [if_neg (show ¬(2048 < F) by omega)]
    · exact hs
    · exact hp
    · exact ha
    · exact Nat.le_refl 1
    · exact hov
  have hsent : SweepSentinel (c.wb 0xFF14 v) := by
    rw [hwb]
    exact ⟨hs, hp, ha, rfl, rfl⟩
  obtain ⟨hseq, -⟩ := step_sweep_sentinel _ hsent
  refine ⟨by rw [hwb], by rw [hwb], ?_, ?_, by rw [hwb], by rw [hwb], ?_, ?_⟩
  · rw [hwb]
    dsimp only
    omega
  · rw [hwb]
    dsimp only
    rw [htr]
    decide
  · rw [hseq]
  · rw [hseq]

/-- Witness for C2 at the concrete state `triggerOverflowChan` with trigger
byte `0x85` (triggered frequency `F = 0x560 = 1376`). -/
theorem c2_trigger_sweep_recalc_witness :
    (triggerOverflowChan.wb 0xFF14 0x85).frequency = 1376 ∧
    (triggerOverflowChan.wb 0xFF14 0x85).period = (2048 - 1376) * 4 ∧
    ¬(triggerOverflowChan.wb 0xFF14 0x85).period = 0 ∧
    (triggerOverflowChan.wb 0xFF14 0x85).enabled = true ∧
    (triggerOverflowChan.wb 0xFF14 0x85).sweep_frequency = 2048 ∧
    (triggerOverflowChan.wb 0xFF14 0x85).sweep_delay = 0 ∧
    (triggerOverflowChan.wb 0xFF14 0x85).step_sweep.period = 0 ∧
    (triggerOverflowChan.wb 0xFF14 0x85).step_sweep.frequency = 2048 :=
  c2_trigger_sweep_recalc triggerOverflowChan 0x85 1376 (by decide) (by decide)
    (by decide) (by decide) (by decide) (by decide) (by decide)

/-- C2 counterexample: at `triggerOverflowChan`, the trigger write `0x85`
(bit 7 set, armed adding sweep, triggered frequency 1376 overflowing under
shift 1) leaves the waveform period at 2688, not 0: the write does not
silence the channel. -/
theorem c2_counterexample :
    triggerOverflowChan.has_sweep = true ∧
    0 < triggerOverflowChan.sweep_period ∧
    0 < triggerOverflowChan.sweep_shift ∧
    triggerOverflowChan.sweep_by_adding = true ∧
    (0x85 : Nat) &&& 0x80 = 0x80 ∧
    2048 - (1376 >>> triggerOverflowChan.sweep_shift) ≤ 1376 ∧
    (triggerOverflowChan.wb 0xFF14 0x85).period = 2688 ∧
    ¬(triggerOverflowChan.wb 0xFF14 0x85).period = 0 := by decide

/-- A step at `delay = 1` performs the volume adjustment: one up, clamped at
15, or one down, saturating at 0. -/
lemma env_step_adjust (E : VolumeEnvelope) (hδ : E.delay = 1) (hv : E.volume ≤ 15) :
    E.step.volume =
      (if E.goes_up = true then min (E.volume + 1) 15 else E.volume - 1) := by
  unfold VolumeEnvelope.step
  rw [if_neg (by omega), if_pos hδ]
  dsimp only
  rcases Bool.eq_false_or_eq_true E.goes_up with hg | hg <;>
    simp only [hg] <;> split_ifs <;> simp_all <;> omega

/-- C3 (corrected).  For an envelope with `period > 0` starting from a reload
(`delay = period`), the volume is unchanged by the first `period - 1` steps
and changes by exactly one in the configured direction, clamped to [0,15],
at step number `period`.  An envelope with `period = 0` AND an exhausted
countdown (`delay = 0`) never changes volume under stepping.  The claim's
unqualified second half is false: a state with `period = 0` but a leftover
countdown still adjusts the volume once (see `c3_counterexample`). -/
theorem c3_envelope_timing (e f : VolumeEnvelope) (k n : Nat)
    (hp : 0 < e.period) (hd : e.delay = e.period) (hv : e.volume ≤ 15)
    (hk : k < e.period) (_hf : f.period = 0) (hfd : f.delay = 0) :
    (VolumeEnvelope.step^[k] e).volume = e.volume ∧
    (VolumeEnvelope.step^[e.period] e).volume =
      (if e.goes_up = true then min (e.volume + 1) 15 else e.volume - 1) ∧
    (VolumeEnvelope.step^[n] f).volume = f.volume := by
  refine ⟨?_, ?_, ?_⟩
  · rw [env_step_countdown k e (by omega)]
  · have h1 : e.period = (e.period - 1) + 1 := by omega
    rw [h1, Function.iterate_succ_apply',
      env_step_countdown (e.period - 1) e (by omega)]
    rw [env_step_adjust _ (by dsimp only; omega) (by exact hv)]
  · rw [Function.iterate_fixed (env_step_of_delay_zero f hfd)]

/-- Witness for C3: the concrete period-3 reloaded envelope `envReload` and
the disabled envelope `envZero`. -/
theorem c3_envelope_timing_witness :
    (VolumeEnvelope.step^[2] envReload).volume = envReload.volume ∧
    (VolumeEnvelope.step^[envReload.period] envReload).volume =
      (if envReload.goes_up = true then min (envReload.volume + 1) 15
       else envReload.volume - 1) ∧
    (VolumeEnvelope.step^[5] envZero).volume = envZero.volume :=
  c3_envelope_timing envReload envZero 2 5 (by decide) (by decide) (by decide)
    (by decide) (by decide) (by decide)

/-- C3 counterexample: `envLeftoverDelay` has `period = 0`, yet a single step
changes its volume (5 becomes 4), because a countdown of 1 is left over from
before the period was written to 0. -/
theorem c3_counterexample :
    envLeftoverDelay.period = 0 ∧
    ¬(VolumeEnvelope.step^[1] envLeftoverDelay).volume = envLeftoverDelay.volume := by
  decide

/-- C4 (confirmed).  On every reachable envelope state the volume lies in
[0,15]; it stays there under any further `u8` register write and any step;
and once at the bound of its configured direction (15 increasing,
0 decreasing) any number of further steps leaves the volume unchanged. -/
theorem c4_envelope_volume_invariant (e : VolumeEnvelope) (a v n : Nat)
    (h : e.Reachable) (hv : v < 256) :
    e.volume ≤ 15 ∧ (e.wb a v).volume ≤ 15 ∧ e.step.volume ≤ 15 ∧
    (e.goes_up = true → e.volume = 15 →
      (VolumeEnvelope.step^[n] e).volume = 15) ∧
    (e.goes_up = false → e.volume = 0 →
      (VolumeEnvelope.step^[n] e).volume = 0) := by
  have hi := env_reachable_inv e h
  exact ⟨hi.1, (env_wb_inv e a v hv hi).1, (env_step_inv e hi).1,
    fun hg hv15 => env_iterate_at_top n e hg hv15,
    fun hg hv0 => env_iterate_at_bottom n e hg hv0⟩

/-- Witness for C4 at the reachable envelope obtained by writing `0xF8`
(volume 15, increasing) to the channel-1 envelope register. -/
theorem c4_envelope_volume_invariant_witness :
    (VolumeEnvelope.new.wb 0xFF12 0xF8).volume ≤ 15 ∧
    ((VolumeEnvelope.new.wb 0xFF12 0xF8).wb 0xFF21 0x33).volume ≤ 15 ∧
    (VolumeEnvelope.new.wb 0xFF12 0xF8).step.volume ≤ 15 ∧
    ((VolumeEnvelope.new.wb 0xFF12 0xF8).goes_up = true →
      (VolumeEnvelope.new.wb 0xFF12 0xF8).volume = 15 →
      (VolumeEnvelope.step^[3] (VolumeEnvelope.new.wb 0xFF12 0xF8)).volume = 15) ∧
    ((VolumeEnvelope.new.wb 0xFF12 0xF8).goes_up = false →
      (VolumeEnvelope.new.wb 0xFF12 0xF8).volume = 0 →
      (VolumeEnvelope.step^[3] (VolumeEnvelope.new.wb 0xFF12 0xF8)).volume = 0) :=
  c4_envelope_volume_invariant _ 0xFF21 0x33 3
    (VolumeEnvelope.Reachable.wb 0xFF12 0xF8 VolumeEnvelope.Reachable.init
      (by norm_num))
    (by norm_num)

/-- The sequencer catch-up performed by `Sound::run` leaves the register
shadow untouched. -/
lemma run_registerdata (s : Sound) : s.run.registerdata = s.registerdata :=
  runAux_registerdata (s.time + 1) s

/-- C5 (corrected).  The length counter never exceeds 64 under any sequence
of channel operations, and it never decreases along a sequence containing no
write to the duty/length register.  The claim's exception clause is off: a
trigger write leaves the counter alone, while an ordinary duty/length
register write — not a trigger — reloads it with the written low six bits
and can decrease it (see `c5_counterexample`). -/
theorem c5_length_counter (c : SquareChannel) (l lAll : List ChanOp)
    (hc : c.length ≤ 64) (hl : ∀ o ∈ l, o.lengthWrite = false) :
    (ChanOp.applyOps lAll c).length ≤ 64 ∧
    (ChanOp.applyOps l c).length ≤ 64 ∧
    c.length ≤ (ChanOp.applyOps l c).length :=
  ⟨applyOps_length_le lAll c hc, applyOps_length_le l c hc,
    applyOps_length_mono l c hl⟩

/-- Witness for C5 on the fresh sweep channel with a length step, a sweep
step and (for the bound only) a duty/length write of `0xFF`. -/
theorem c5_length_counter_witness :
    (ChanOp.applyOps [ChanOp.write 0xFF11 0xFF] (SquareChannel.new true)).length ≤ 64 ∧
    (ChanOp.applyOps [ChanOp.lengthStep, ChanOp.sweepStep]
      (SquareChannel.new true)).length ≤ 64 ∧
    (SquareChannel.new true).length ≤
      (ChanOp.applyOps [ChanOp.lengthStep, ChanOp.sweepStep]
        (SquareChannel.new true)).length :=
  c5_length_counter (SquareChannel.new true)
    [ChanOp.lengthStep, ChanOp.sweepStep] [ChanOp.write 0xFF11 0xFF]
    (by decide) (by decide)

/-- C5 counterexample: two writes to the duty/length register `0xFF11` —
neither of them a trigger write — take the length counter from 50 down
to 0. -/
theorem c5_counterexample :
    ((SquareChannel.new true).wb 0xFF11 50).length = 50 ∧
    (((SquareChannel.new true).wb 0xFF11 50).wb 0xFF11 0).length = 0 := by
  decide

/-- C6 (confirmed).  Reading the status register 0xFF26 drains the sequencer
and returns the shadow byte's upper nibble OR'd with live per-channel on
bits: bit i is the post-catch-up value of
`enabled && (!length_enabled || length < 64)` for channel i+1, and the upper
nibble equals the stored shadow nibble (the catch-up never writes the
shadow). -/
theorem c6_status_register_read (s : Sound)
    (h : s.registerdata.getD 0x16 0 < 256) :
    ((s.rb 0xFF26).2.testBit 0 = s.run.channel1.is_on) ∧
    ((s.rb 0xFF26).2.testBit 1 = s.run.channel2.is_on) ∧
    ((s.rb 0xFF26).2 >>> 4 = s.registerdata.getD 0x16 0 >>> 4) := by
  have hv : (s.rb 0xFF26).2 =
      ((s.registerdata.getD 0x16 0 &&& 0xF0)
        ||| (if s.run.channel1.is_on then 1 else 0))
        ||| (if s.run.channel2.is_on then 2 else 0) := by
    unfold Sound.rb
    dsimp only
    rw [if_neg (by norm_num), if_pos rfl, run_registerdata]
  rw [hv]
  exact status_byte_bits (s.registerdata.getD 0x16 0) h
    s.run.channel1.is_on s.run.channel2.is_on

/-- Witness for C6 at `soundIdle` (channel 1 enabled and audible, channel 2
disabled, status shadow `0xA0`): the read returns `0xA1`, bit 0 set, bit 1
clear, upper nibble `0xA`. -/
theorem c6_status_register_read_witness :
    (soundIdle.rb 0xFF26).2 = 0xA1 ∧
    ((soundIdle.rb 0xFF26).2.testBit 0 = soundIdle.run.channel1.is_on) ∧
    ((soundIdle.rb 0xFF26).2.testBit 1 = soundIdle.run.channel2.is_on) ∧
    ((soundIdle.rb 0xFF26).2 >>> 4 = soundIdle.registerdata.getD 0x16 0 >>> 4) :=
  ⟨by decide, c6_status_register_read soundIdle (by decide)⟩

/-- C7 (confirmed).  With the 11-bit frequency at exactly 2048 the computed
waveform period is 0, and generation over any tick interval emits no deltas
apart from the single delta returning the trailing amplitude to 0 (placed at
`start_time`, only when `last_amp ≠ 0`), regardless of `enabled`. -/
theorem c7_frequency_2048_silent (c : SquareChannel) (s e : Nat)
    (h : c.frequency = 2048) :
    c.calculate_period.period = 0 ∧
    (c.calculate_period.run s e).blip =
      c.blip ++ (if c.last_amp = 0 then [] else [(s, -c.last_amp)]) ∧
    (c.calculate_period.run s e).last_amp = 0 := by
  have hcp : c.calculate_period = { c with period := 0 } := by
    unfold SquareChannel.calculate_period
    rw [if_neg (by omega), h]
  have hrun : c.calculate_period.run s e =
      if c.last_amp = 0 then { c with period := 0 }
      else { c with
               period := 0, blip := c.blip ++ [(s, -c.last_amp)],
               last_amp := 0, delay := 0 } := by
    rw [hcp]
    unfold SquareChannel.run
    rw [if_pos (Or.inr (Or.inr rfl))]
    by_cases hl : c.last_amp = 0
    · rw [if_neg (by simp [hl]), if_pos hl]
    · rw [if_pos hl, if_neg hl]
  refine ⟨by rw [hcp], ?_, ?_⟩
  · rw [hrun]
    split
    · simp
    · rfl
  · rw [hrun]
    split
    · assumption
    · rfl

/-- Witness for C7 at `silentChan` (frequency 2048, enabled, trailing
amplitude 5) over the interval [100, 200]. -/
theorem c7_frequency_2048_silent_witness :
    silentChan.calculate_period.period = 0 ∧
    (silentChan.calculate_period.run 100 200).blip =
      silentChan.blip ++
        (if silentChan.last_amp = 0 then [] else [(100, -silentChan.last_amp)]) ∧
    (silentChan.calculate_period.run 100 200).last_amp = 0 :=
  c7_frequency_2048_silent silentChan 100 200 (by decide)

/-- A master-control write with no sequencer tick pending stores the byte in
the 0xFF26 shadow slot and sets the power flag from bit 7; nothing else
changes. -/
lemma wb_master_control (s : Sound) (v : Nat) (hpend : s.time < s.next_time) :
    s.wb 0xFF26 v =
      { s with is_on := v &&& 0x80 == 0x80,
               registerdata := s.registerdata.set 0x16 v } := by
  unfold Sound.wb
  rw [if_neg (by simp)]
  dsimp only
  rw [run_of_no_pending s hpend]
  rw [if_pos (show (0xFF10 : Nat) ≤ 0xFF26 ∧ (0xFF26 : Nat) ≤ 0xFF26 by norm_num)]
  rw [if_neg (show ¬((0xFF10 : Nat) ≤ 0xFF26 ∧ (0xFF26 : Nat) ≤ 0xFF14) by norm_num)]
  rw [if_neg (show ¬((0xFF16 : Nat) ≤ 0xFF26 ∧ (0xFF26 : Nat) ≤ 0xFF19) by norm_num)]
  rw [if_neg (show ¬(0xFF26 : Nat) = 0xFF24 by norm_num)]
  rw [if_pos rfl]

/-- C8 (confirmed).  While the APU is powered off, a write to any address
other than the master-control register 0xFF26 returns before touching
anything — the whole state (register shadow, channels, timing counters,
volumes) is unchanged — and `do_cycle` leaves the state, in particular the
accumulated virtual time, unchanged. -/
theorem c8_powered_off_gating (s : Sound) (a v t : Nat)
    (hoff : s.is_on = false) (ha : ¬a = 0xFF26) :
    s.wb a v = s ∧ s.do_cycle t = s := by
  constructor
  · unfold Sound.wb
    rw [if_pos ⟨ha, hoff⟩]
  · unfold Sound.do_cycle
    rw [if_pos hoff]

/-- Witness for C8 at the powered-off fresh APU. -/
theorem c8_powered_off_gating_witness :
    Sound.new.wb 0xFF12 0xAB = Sound.new ∧
    Sound.new.do_cycle 1000 = Sound.new :=
  c8_powered_off_gating Sound.new 0xFF12 0xAB 1000 (by decide) (by decide)

/-- C9 (corrected).  For any address outside 0xFF10-0xFF26, a read returns 0
and an out-of-range write decodes to nothing: when powered on the state after
the write is exactly the state after the sequencer catch-up that every
register access performs (hence unchanged whenever no tick is pending), and
when powered off it is exactly unchanged; neither operation can fail.  The
claim as stated misses the catch-up: with a pending sequencer tick an
out-of-range write does advance channel state (see `c9_counterexample`). -/
theorem c9_out_of_range_access (s : Sound) (a v : Nat)
    (ha : a < 0xFF10 ∨ 0xFF26 < a) :
    (s.rb a).2 = 0 ∧ s.wb a v = (if s.is_on = true then s.run else s) := by
  constructor
  · unfold Sound.rb
    dsimp only
    rw [if_neg (show ¬(0xFF10 ≤ a ∧ a ≤ 0xFF25) by omega),
      if_neg (show ¬a = 0xFF26 by omega)]
  · unfold Sound.wb
    rcases Bool.eq_false_or_eq_true s.is_on with hon | hon
    · rw [if_neg (show ¬(¬a = 0xFF26 ∧ s.is_on = false) by simp [hon])]
      dsimp only
      rw [if_neg (show ¬(0xFF10 ≤ a ∧ a ≤ 0xFF26) by omega)]
      rw [if_neg (show ¬(0xFF10 ≤ a ∧ a ≤ 0xFF14) by omega)]
      rw [if_neg (show ¬(0xFF16 ≤ a ∧ a ≤ 0xFF19) by omega)]
      rw [if_neg (show ¬a = 0xFF24 by omega)]
      rw [if_neg (show ¬a = 0xFF26 by omega)]
      rw [if_pos hon]
    · rw [if_pos (show ¬a = 0xFF26 ∧ s.is_on = false from ⟨by omega, hon⟩),
        if_neg (show ¬s.is_on = true by simp [hon])]

/-- Witness for C9 at `soundIdle` with the out-of-range address 0xFF00. -/
theorem c9_out_of_range_access_witness :
    (soundIdle.rb 0xFF00).2 = 0 ∧
    soundIdle.wb 0xFF00 5 =
      (if soundIdle.is_on = true then soundIdle.run else soundIdle) :=
  c9_out_of_range_access soundIdle 0xFF00 5 (by decide)

/-- C9 counterexample: with a sequencer tick pending, the out-of-range write
`wb 0xFF00 0` advances decoded channel state — channel 1's length counter
moves from 5 to 6 — so the write does not leave the channel state
unchanged. -/
theorem c9_counterexample :
    (0xFF00 : Nat) < 0xFF10 ∧
    soundPending.channel1.length = 5 ∧
    (soundPending.wb 0xFF00 0).channel1.length = 6 := by decide

/-- C10 (corrected).  With no sequencer tick pending, writing the
master-control register with bit 7 clear only clears the power flag and
stores the byte in that register's own shadow slot — channels, volumes,
timing and all other shadow bytes survive — and a subsequent power-on write
restores everything except that slot to exactly its pre-power-off value.
Without the no-pending-tick proviso the claim fails: the catch-up run by the
write itself can advance channel state (see `c10_counterexample`). -/
theorem c10_power_off_preserves_state (s : Sound) (v w : Nat)
    (hpend : s.time < s.next_time) (hv : v &&& 0x80 = 0)
    (hw : w &&& 0x80 = 0x80) :
    s.wb 0xFF26 v =
      { s with is_on := false,
               registerdata := s.registerdata.set 0x16 v } ∧
    (s.wb 0xFF26 v).wb 0xFF26 w =
      { s with is_on := true,
               registerdata := (s.registerdata.set 0x16 v).set 0x16 w } := by
  have h1 := wb_master_control s v hpend
  have h1f : s.wb 0xFF26 v =
      { s with is_on := false,
               registerdata := s.registerdata.set 0x16 v } := by
    rw [h1, hv]
    rfl
  refine ⟨h1f, ?_⟩
  have h2 := wb_master_control (s.wb 0xFF26 v) w
    (by rw [h1f]; show s.time < s.next_time; exact hpend)
  rw [h2, h1f, hw]
  rfl

/-- Witness for C10 at `soundIdle` with power-off byte `0x13` and power-on
byte `0x85`. -/
theorem c10_power_off_preserves_state_witness :
    soundIdle.wb 0xFF26 0x13 =
      { soundIdle with
          is_on := false,
          registerdata := soundIdle.registerdata.set 0x16 0x13 } ∧
    (soundIdle.wb 0xFF26 0x13).wb 0xFF26 0x85 =
      { soundIdle with
          is_on := true,
          registerdata := (soundIdle.registerdata.set 0x16 0x13).set 0x16 0x85 } :=
  c10_power_off_preserves_state soundIdle 0x13 0x85 (by decide) (by decide)
    (by decide)

/-- C10 counterexample: the power-off write `wb 0xFF26 0` (bit 7 clear) at a
state with a pending sequencer tick changes channel state: channel 1's
length counter moves from 5 to 6. -/
theorem c10_counterexample :
    (0 : Nat) &&& 0x80 = 0 ∧
    soundPending.channel1.length = 5 ∧
    (soundPending.wb 0xFF26 0).channel1.length = 6 := by decide
